import Mathlib

/-!
Shallow embedding of the `kata` Kafka TUI client (Rust) and verification of
its specification claims.  Each Rust function that a claim depends on is
translated into an executable Lean definition; stateful code becomes explicit
state passing, fallible or panicking code returns `Option`/`Except` or an
explicit outcome type.
-/

namespace Kata

/-! ## Tabs (`src/tabs.rs`)

`Tab` with `#[derive(Default, FromRepr)]`; declaration order `Topic, Group,
Broker`.  `next`/`prev` go through `from_repr` on the saturating
successor/predecessor of the discriminant and fall back to `self`. -/

inductive Tab where
  | Topic
  | Group
  | Broker
deriving DecidableEq, Repr

def Tab.toIdx : Tab → Nat
  | .Topic => 0
  | .Group => 1
  | .Broker => 2

def Tab.fromRepr : Nat → Option Tab
  | 0 => some .Topic
  | 1 => some .Group
  | 2 => some .Broker
  | _ => none

def Tab.next (t : Tab) : Tab :=
  (Tab.fromRepr (t.toIdx + 1)).getD t

def Tab.prev (t : Tab) : Tab :=
  (Tab.fromRepr (t.toIdx - 1)).getD t

/-! ## Message mapping (`src/kafka.rs`)

`impl From<BorrowedMessage> for KafkaMessage`.  The client library's
`payload_view::<str>()` returns `Option<Result<&str>>`: `None` when the
message carries no payload, `Some(Err _)` when the bytes are not valid text,
`Some(Ok s)` when decoding succeeds.  We model that three-way result as
`Option (Option String)` with `some (some s)` the success case. -/

structure BorrowedMessage where
  offset : Int
  payload_view : Option (Option String)
  key_view : Option (Option String)
deriving Repr, DecidableEq

structure KafkaMessage where
  offset : Int
  payload : String
  key : String
deriving Repr, DecidableEq

def KafkaMessage.fromBorrowed (m : BorrowedMessage) : KafkaMessage :=
  { offset := m.offset
    payload :=
      match m.payload_view with
      | some (some payload) => payload
      | _ => "Unknown"
    key :=
      match m.key_view with
      | some (some key) => key
      | _ => "Unknown" }

/-! ## Error band (`src/tabs/topic.rs`)

The band is the pair of cells `err : Option String` and
`err_time : Option SystemTime`.  It has three writers: `set_error` stores the
text and the current time, sleeps five seconds on a spawned task, and then —
if the stored timestamp is at least five seconds old — clears `err` (and only
`err`); and the receive task's completion closure (lines 361-365), which
clones only the `err` cell, stores the poll error text or the literal
`"Recv messages finished"` in `err`, never touching `err_time`.
`bottom_bar_spans` reads `err`: when present it renders the text in the error
style; otherwise it renders the hotkey legend.  Time is modelled as `Nat`
seconds. -/

structure ErrBand where
  text : Option String
  set_at : Option Nat
deriving Repr, DecidableEq

def ErrBand.init : ErrBand := ⟨none, none⟩

/-- The assignment half of `set_error` (lines 465-470): store the message and
the current time. -/
def setErrorAt (msg : String) (now : Nat) (_s : ErrBand) : ErrBand :=
  ⟨some msg, some now⟩

/-- The post-sleep half of `set_error` (lines 472-479): if a timestamp is
stored and at least five seconds have elapsed, clear `err`; `err_time` is not
touched. -/
def sleepClearAt (now : Nat) (s : ErrBand) : ErrBand :=
  match s.set_at with
  | some t => if 5 ≤ now - t then ⟨none, s.set_at⟩ else s
  | none => s

/-- The receive-task completion write (lines 361-365): on the task's end the
closure stores the error text, or `"Recv messages finished"`, in `err`; it
holds no clone of `err_time`, which is left as it was. -/
def recvEndWrite (msg : String) (s : ErrBand) : ErrBand :=
  ⟨some msg, s.set_at⟩

inductive BottomBar where
  | errorText (e : String)
  | legend
deriving Repr, DecidableEq

/-- `TopicTab::bottom_bar_spans` (lines 247-268): a pure read of the band;
it inspects `err` only and does not mutate either cell. -/
def bottom_bar_spans (s : ErrBand) : BottomBar :=
  match s.text with
  | some e => .errorText e
  | none => .legend

inductive ErrEvent where
  | set (msg : String) (now : Nat)
  | sleepClear (now : Nat)
  | recvEnd (msg : String)
deriving Repr, DecidableEq

def errStep (s : ErrBand) : ErrEvent → ErrBand
  | .set msg now => setErrorAt msg now s
  | .sleepClear now => sleepClearAt now s
  | .recvEnd msg => recvEndWrite msg s

/-- Every state the error band can reach from start-up, under its three
writers: `set_error`'s assignment, its deferred clear, and the receive
task's completion write. -/
def errRun (evs : List ErrEvent) : ErrBand :=
  evs.foldl errStep ErrBand.init

/-! ## Topics-tab page machine and receive-task slot (`src/tabs/topic.rs`)

The tab holds `topic_page : TopicPage` and
`receive_handle : Option<JoinHandle<()>>`.  Join handles are modelled by
`Nat` identifiers; each transition function returns the new state together
with the list of handles it aborted. -/

inductive TopicPage where
  | Normal
  | Info
  | Messages
  | MessagesRecv
  | Send
  | SendEdit
deriving DecidableEq, Repr

structure TopicTabState where
  topic_page : TopicPage
  receive_handle : Option Nat
deriving DecidableEq, Repr

/-- `TopicTab::set_topic_page` (lines 95-101): when the *current* page is not
`MessagesRecv` and a handle is held, take it and abort it; then store the new
page. -/
def set_topic_page (s : TopicTabState) (page : TopicPage) : TopicTabState × List Nat :=
  if s.topic_page ≠ TopicPage.MessagesRecv ∧ s.receive_handle.isSome then
    ({ topic_page := page, receive_handle := none }, s.receive_handle.toList)
  else
    ({ topic_page := page, receive_handle := s.receive_handle }, [])

/-- The page part of `TopicTab::select_next` (lines 386-394), key `j`/Down.
In `Normal` the list selection moves instead; the page is unchanged. -/
def select_next_page (s : TopicTabState) : TopicTabState × List Nat :=
  match s.topic_page with
  | .Normal => (s, [])
  | .Info => set_topic_page s .Messages
  | .Messages | .MessagesRecv => set_topic_page s .Send
  | .Send | .SendEdit => set_topic_page s .Info

/-- The page part of `TopicTab::select_previous` (lines 396-404), key
`k`/Up.  Note the `Info` arm assigns `topic_page` directly, bypassing
`set_topic_page`. -/
def select_previous_page (s : TopicTabState) : TopicTabState × List Nat :=
  match s.topic_page with
  | .Normal => (s, [])
  | .Info => ({ s with topic_page := .Send }, [])
  | .Messages | .MessagesRecv => set_topic_page s .Info
  | .Send | .SendEdit => set_topic_page s .Messages

/-- The `Esc`/`q` arm of `TopicTab::handle_key_press` (lines 333-336): in
`Normal` the mode changes instead; from any other page go back to `Normal`
through `set_topic_page`. -/
def escape_page (s : TopicTabState) : TopicTabState × List Nat :=
  match s.topic_page with
  | .Normal => (s, [])
  | _ => set_topic_page s .Normal

/-- The `Enter`-on-`Messages` arm (lines 355-370): store the freshly spawned
handle, then call `set_topic_page MessagesRecv`. -/
def enter_on_messages (s : TopicTabState) (newHandle : Nat) : TopicTabState × List Nat :=
  set_topic_page { s with receive_handle := some newHandle } .MessagesRecv

/-! ## Topic metadata and refresh (`src/kafka.rs`, `src/tabs/topic.rs`) -/

structure MetadataPartition where
  id : Int
  leader : Int
  replicas : List Int
  isr : List Int
deriving DecidableEq, Repr

structure MetadataTopic where
  name : String
  partitions : List MetadataPartition
deriving DecidableEq, Repr

structure KafkaPartition where
  id : Int
  leader : Int
  replicas : List Int
  isr : List Int
  low : Int
  high : Int
deriving DecidableEq, Repr

/-- `impl From<&MetadataPartition> for KafkaPartition`: watermarks start at
zero. -/
def KafkaPartition.fromMeta (p : MetadataPartition) : KafkaPartition :=
  ⟨p.id, p.leader, p.replicas, p.isr, 0, 0⟩

structure KafkaTopic where
  name : String
  partitions : List KafkaPartition
deriving DecidableEq, Repr

/-- The inner loop of `TopicTab::refresh_matadata` (lines 280-291): walk the
partitions in order, fetch watermarks for each, store them; the first failure
aborts. `wm` is the `fetch_watermarks` call on the shared consumer. -/
def fillPartitions (wm : String → Int → Except String (Int × Int)) (name : String) :
    List KafkaPartition → Except String (List KafkaPartition)
  | [] => .ok []
  | p :: ps =>
    match wm name p.id with
    | .ok (low, high) =>
      (fillPartitions wm name ps).map fun rest => { p with low := low, high := high } :: rest
    | .error e => .error e

/-- One topic of the refresh loop: `KafkaTopic::from(topic)` followed by the
watermark walk. -/
def fillTopic (wm : String → Int → Except String (Int × Int)) (t : MetadataTopic) :
    Except String KafkaTopic :=
  (fillPartitions wm t.name (t.partitions.map KafkaPartition.fromMeta)).map
    fun ps => ⟨t.name, ps⟩

/-- The topic loop of `refresh_matadata` (lines 277-293): `items` was cleared
on entry; each fully-watermarked topic is pushed, and a watermark failure
returns at once, leaving exactly the topics pushed so far. -/
def refreshTopics (wm : String → Int → Except String (Int × Int)) :
    List MetadataTopic → List KafkaTopic × Option String
  | [] => ([], none)
  | t :: ts =>
    match fillTopic wm t with
    | .ok kt =>
      let rest := refreshTopics wm ts
      (kt :: rest.1, rest.2)
    | .error e => ([], some e)

/-- `TopicTab::refresh_matadata` (lines 272-301): on a metadata-fetch error
the old list is untouched and the error is raised; on success the list is
cleared and rebuilt by the topic loop.  The result is the new `items`
together with the error put on the band, if any. -/
def refresh_matadata (meta : Except String (List MetadataTopic))
    (wm : String → Int → Except String (Int × Int))
    (old : List KafkaTopic) : List KafkaTopic × Option String :=
  match meta with
  | .error e => (old, some e)
  | .ok ts => refreshTopics wm ts

/-- A concrete watermark oracle: fails on partition 9 only. -/
def wmBoom : String → Int → Except String (Int × Int) :=
  fun _ i => if i = 9 then .error "boom" else .ok (0, 10)

/-! ## Detail-pane rendering (`src/tabs/topic.rs`, lines 137-149 and
237-245) -/

inductive RenderOutcome where
  | panicked
  | noSelection
  | rendered (t : KafkaTopic)
deriving DecidableEq, Repr

/-- `TopicTab::render_selected_item`: a `None` selection returns at once; a
`Some index` selection is used to index `items` unconditionally, which
panics when `index` is out of range. -/
def render_selected_item (items : List KafkaTopic) (selected : Option Nat) :
    RenderOutcome :=
  match selected with
  | none => .noSelection
  | some index =>
    if h : index < items.length then .rendered (items.get ⟨index, h⟩)
    else .panicked

/-- `TopicTab::render_topic_send` resolves the current topic name with
`items[state.selected().unwrap()]`; `none` models the panic (failed `unwrap`
or out-of-range index). -/
def render_topic_send_topic (items : List KafkaTopic) (selected : Option Nat) :
    Option String :=
  match selected with
  | none => none
  | some index =>
    if h : index < items.length then some (items.get ⟨index, h⟩).name
    else none

/-! ## Send form (`src/tabs/topic_send.rs`)

Field texts are modelled as `List Char`; `cursor_index` is an index into the
active field.  Rust's `String::insert`/`String::remove` panic when the index
is out of bounds, so the editing operations return `Option` with `none` for
a panic. -/

inductive InputField where
  | Message
  | Key
  | Partition
deriving DecidableEq, Repr

/-- `InputField::next`: `Message → Key → Partition → Message`. -/
def InputField.next : InputField → InputField
  | .Message => .Key
  | .Key => .Partition
  | .Partition => .Message

structure TopicSendForm where
  field : InputField
  topic : String
  partition : List Char
  message : List Char
  key : List Char
  cursor_index : Nat
  err : Option String
deriving DecidableEq, Repr

/-- `TopicSendForm::new`. -/
def TopicSendForm.new (topic : String) : TopicSendForm :=
  { field := .Message, topic := topic, partition := [], message := [],
    key := [], cursor_index := 0, err := none }

/-- Rust `String::insert` at `i`: panics (`none`) when `i` is past the end. -/
def insertCharAt (l : List Char) (i : Nat) (c : Char) : Option (List Char) :=
  if i ≤ l.length then some (l.insertIdx i c) else none

/-- Rust `String::remove` at `i`: panics (`none`) when `i` is out of
bounds. -/
def removeCharAt (l : List Char) (i : Nat) : Option (List Char) :=
  if i < l.length then some (l.eraseIdx i) else none

/-- `TopicSendForm::change_field` (lines 150-157): advance the field, put the
cursor at the end of the new field's text. -/
def change_field (s : TopicSendForm) : TopicSendForm :=
  let f := s.field.next
  { s with
    field := f
    cursor_index :=
      match f with
      | .Message => s.message.length
      | .Key => s.key.length
      | .Partition => s.partition.length }

/-- `TopicSendForm::move_cursor_left` (lines 159-162): saturating
decrement. -/
def move_cursor_left (s : TopicSendForm) : TopicSendForm :=
  { s with cursor_index := s.cursor_index - 1 }

/-- `TopicSendForm::move_cursor_right` (lines 164-167): saturating increment
— there is no clamp against the field length. -/
def move_cursor_right (s : TopicSendForm) : TopicSendForm :=
  { s with cursor_index := s.cursor_index + 1 }

/-- `TopicSendForm::enter_char` (lines 169-185): insert into the active field
at the cursor and advance the cursor; in `Partition`, a non-digit returns
early, changing nothing. -/
def enter_char (s : TopicSendForm) (c : Char) : Option TopicSendForm :=
  match s.field with
  | .Message =>
    (insertCharAt s.message s.cursor_index c).map fun m =>
      move_cursor_right { s with message := m }
  | .Key =>
    (insertCharAt s.key s.cursor_index c).map fun k =>
      move_cursor_right { s with key := k }
  | .Partition =>
    if !c.isDigit then some s
    else
      (insertCharAt s.partition s.cursor_index c).map fun p =>
        move_cursor_right { s with partition := p }

/-- `TopicSendForm::delete_char` (lines 187-204): no-op at cursor 0,
otherwise remove the character before the cursor and retreat. -/
def delete_char (s : TopicSendForm) : Option TopicSendForm :=
  if s.cursor_index = 0 then some s
  else
    match s.field with
    | .Message =>
      (removeCharAt s.message (s.cursor_index - 1)).map fun m =>
        move_cursor_left { s with message := m }
    | .Key =>
      (removeCharAt s.key (s.cursor_index - 1)).map fun k =>
        move_cursor_left { s with key := k }
    | .Partition =>
      (removeCharAt s.partition (s.cursor_index - 1)).map fun p =>
        move_cursor_left { s with partition := p }

/-- The produce record `submit` builds (`BaseRecord::to(..)` plus the
optional `key`/`partition` setters). -/
structure BaseRecord where
  topic : String
  payload : List Char
  key : Option (List Char)
  partition : Option Int
deriving DecidableEq, Repr

def digitsToNat (l : List Char) : Nat :=
  l.foldl (fun a c => a * 10 + (c.toNat - 48)) 0

/-- Rust `str::parse::<i32>()` on the digit-only strings the partition field
can hold: succeeds exactly on a non-empty all-digit string whose value fits
in `i32`. -/
def parse_i32 (l : List Char) : Option Int :=
  if l ≠ [] ∧ l.all (fun c => c.isDigit) ∧ digitsToNat l ≤ 2147483647 then
    some (digitsToNat l)
  else none

/-- `TopicSendForm::empty` (lines 231-236): clear the three fields and the
cursor (`err` is untouched). -/
def TopicSendForm.emptyForm (s : TopicSendForm) : TopicSendForm :=
  { s with message := [], key := [], partition := [], cursor_index := 0 }

inductive SubmitOutcome where
  | ok (s : TopicSendForm) (sent : Option BaseRecord)
  | failed (s : TopicSendForm) (e : String) (attempted : BaseRecord)
  | panicked
deriving DecidableEq, Repr

/-- The tail of `submit` (lines 222-228): hand the record to the producer;
on error store it in `err` and fail, on success clear the form.  `send`
models `producer.send`, returning `some e` for `Err((e, _))`. -/
def submitSend (s : TopicSendForm) (send : BaseRecord → Option String)
    (record : BaseRecord) : SubmitOutcome :=
  match send record with
  | some e => .failed { s with err := some e } e record
  | none => .ok s.emptyForm (some record)

/-- `TopicSendForm::submit` (lines 206-229): an empty message returns `Ok`
at once, sending nothing; the key is attached only when non-empty; a
non-empty partition is parsed with `.parse().unwrap()`, a panic when the
parse fails. -/
def submit (s : TopicSendForm) (send : BaseRecord → Option String) :
    SubmitOutcome :=
  if s.message = [] then .ok s none
  else
    let record : BaseRecord :=
      { topic := s.topic, payload := s.message, key := none, partition := none }
    let record := if s.key = [] then record else { record with key := some s.key }
    if s.partition = [] then submitSend s send record
    else
      match parse_i32 s.partition with
      | some p => submitSend s send { record with partition := some p }
      | none => .panicked

inductive KeyEv where
  | enter
  | tabKey
  | esc
  | left
  | right
  | ch (c : Char)
  | backspace
  | other
deriving DecidableEq, Repr

inductive KeyOutcome where
  | ok (s : TopicSendForm) (page : TopicPage) (sent : Option BaseRecord)
  | panicked
deriving DecidableEq, Repr

/-- `TopicSendForm::handle_key_press` (lines 122-148): `Enter` in the
`Message` field submits (`SendEdit` on failure, `Messages` otherwise), in
any other field it advances the field; `Esc` returns `Send`; the editing
keys mutate the form and stay on `SendEdit`. -/
def handle_key_press (s : TopicSendForm) (k : KeyEv)
    (send : BaseRecord → Option String) : KeyOutcome :=
  match k with
  | .enter =>
    match s.field with
    | .Message =>
      match submit s send with
      | .ok s' sent => .ok s' .Messages sent
      | .failed s' _ _ => .ok s' .SendEdit none
      | .panicked => .panicked
    | _ => .ok (change_field s) .SendEdit none
  | .tabKey => .ok (change_field s) .SendEdit none
  | .esc => .ok s .Send none
  | .left => .ok (move_cursor_left s) .SendEdit none
  | .right => .ok (move_cursor_right s) .SendEdit none
  | .ch c =>
    match enter_char s c with
    | some s' => .ok s' .SendEdit none
    | none => .panicked
  | .backspace =>
    match delete_char s with
    | some s' => .ok s' .SendEdit none
    | none => .panicked
  | .other => .ok s .SendEdit none

/-- Fold a sequence of key events through the form; `none` when any event
panicked. -/
def runKeys (send : BaseRecord → Option String) (s : TopicSendForm) :
    List KeyEv → Option TopicSendForm
  | [] => some s
  | k :: ks =>
    match handle_key_press s k send with
    | .ok s' _ _ => runKeys send s' ks
    | .panicked => none

/-- The record `submit` builds when the partition field is empty. -/
def builtRecord (s : TopicSendForm) : BaseRecord :=
  { topic := s.topic, payload := s.message,
    key := if s.key = [] then none else some s.key, partition := none }

/-- A producer whose acknowledgement always succeeds. -/
def sendOk : BaseRecord → Option String := fun _ => none

end Kata

namespace Kata

/-! Theorems for the tab, message and error-band claims. -/

/-- C8: Tab navigation is saturating with no wrap-around over the declaration
order `Topic, Group, Broker`: `prev` on the first tab and `next` on the last
tab are the identity, and otherwise `next`/`prev` move by exactly one
position (all six instances enumerated). -/
theorem tab_navigation_saturating :
    Tab.prev .Topic = .Topic ∧ Tab.next .Broker = .Broker ∧
    Tab.next .Topic = .Group ∧ Tab.next .Group = .Broker ∧
    Tab.prev .Broker = .Group ∧ Tab.prev .Group = .Topic :=
  ⟨rfl, rfl, rfl, rfl, rfl, rfl⟩

/-- C9: the `KafkaMessage` built from a consumer message keeps the offset,
takes the decoded text for payload/key when decoding succeeds, and the
literal `"Unknown"` when the field is absent or not decodable as text. -/
theorem kafka_message_from_borrowed (m : BorrowedMessage) :
    (KafkaMessage.fromBorrowed m).offset = m.offset ∧
    (∀ s, m.payload_view = some (some s) →
      (KafkaMessage.fromBorrowed m).payload = s) ∧
    (m.payload_view = none ∨ m.payload_view = some none →
      (KafkaMessage.fromBorrowed m).payload = "Unknown") ∧
    (∀ s, m.key_view = some (some s) →
      (KafkaMessage.fromBorrowed m).key = s) ∧
    (m.key_view = none ∨ m.key_view = some none →
      (KafkaMessage.fromBorrowed m).key = "Unknown") := by
  refine ⟨rfl, ?_, ?_, ?_, ?_⟩
  · intro s hs
    simp [KafkaMessage.fromBorrowed, hs]
  · rintro (hp | hp) <;> simp [KafkaMessage.fromBorrowed, hp]
  · intro s hs
    simp [KafkaMessage.fromBorrowed, hs]
  · rintro (hk | hk) <;> simp [KafkaMessage.fromBorrowed, hk]

theorem kafka_message_from_borrowed_witness :
    (KafkaMessage.fromBorrowed ⟨7, some (some "p"), some none⟩).offset = 7 ∧
    (KafkaMessage.fromBorrowed ⟨7, some (some "p"), some none⟩).payload = "p" ∧
    (KafkaMessage.fromBorrowed ⟨7, some (some "p"), some none⟩).key = "Unknown" :=
  ⟨(kafka_message_from_borrowed ⟨7, some (some "p"), some none⟩).1,
   (kafka_message_from_borrowed ⟨7, some (some "p"), some none⟩).2.1 "p" rfl,
   (kafka_message_from_borrowed ⟨7, some (some "p"), some none⟩).2.2.2.2 (Or.inr rfl)⟩

/-- C3 counterexample: after `set_error "E"` at time 0 and the deferred clear
at time 5, the band holds `text = none` while `set_at = some 0` — the claimed
invariant `text.is_some ↔ set_at.is_some` is false in this reachable state,
and the clear removed only `text`, not both fields. -/
theorem error_band_iff_invariant_fails :
    errRun [.set "E" 0, .sleepClear 5] = ⟨none, some 0⟩ ∧
    ¬((errRun [.set "E" 0, .sleepClear 5]).text.isSome ↔
      (errRun [.set "E" 0, .sleepClear 5]).set_at.isSome) := by
  constructor
  · rfl
  · decide

/-- C3 amended: the claimed `text ↔ set_at` invariant fails in both
directions on reachable states — the deferred clear run by the task
`set_error` spawned clears only `text` once five seconds have elapsed,
leaving `set_at` set, and the receive-task completion write stores only
`text` (the poll error or "Recv messages finished"), leaving `set_at` as it
was (`none` if `set_error` never ran); only `set_error`'s own assignment
establishes both fields together, and the bottom-bar renderer is a pure read
that shows the text exactly when it is present and never clears either
field. -/
theorem error_band_amended :
    (∀ (s : ErrBand) (msg : String) (now : Nat),
      setErrorAt msg now s = ⟨some msg, some now⟩) ∧
    (∀ s : ErrBand, ∀ now t, s.set_at = some t → 5 ≤ now - t →
      (sleepClearAt now s).text = none ∧ (sleepClearAt now s).set_at = s.set_at) ∧
    (∀ (s : ErrBand) (msg : String),
      (recvEndWrite msg s).text = some msg ∧
      (recvEndWrite msg s).set_at = s.set_at) ∧
    (∀ s : ErrBand, ∀ e, s.text = some e → bottom_bar_spans s = .errorText e) ∧
    (∀ s : ErrBand, s.text = none → bottom_bar_spans s = .legend) ∧
    errRun [.recvEnd "Recv messages finished"] =
      ⟨some "Recv messages finished", none⟩ ∧
    errRun [.set "E" 0, .sleepClear 5] = ⟨none, some 0⟩ := by
  refine ⟨fun s msg now => rfl, ?_, fun s msg => ⟨rfl, rfl⟩, ?_, ?_, rfl, rfl⟩
  · intro s now t hset hle
    simp [sleepClearAt, hset, hle]
  · intro s e he
    simp [bottom_bar_spans, he]
  · intro s he
    simp [bottom_bar_spans, he]

theorem error_band_amended_witness :
    setErrorAt "E" 0 ErrBand.init = ⟨some "E", some 0⟩ ∧
    (sleepClearAt 6 ⟨some "E", some 0⟩).text = none ∧
    (sleepClearAt 6 ⟨some "E", some 0⟩).set_at = some 0 ∧
    (recvEndWrite "Recv messages finished" ErrBand.init).text =
      some "Recv messages finished" ∧
    (recvEndWrite "Recv messages finished" ErrBand.init).set_at = none ∧
    bottom_bar_spans ⟨some "E", some 0⟩ = .errorText "E" ∧
    bottom_bar_spans ⟨none, some 0⟩ = .legend :=
  ⟨error_band_amended.1 ErrBand.init "E" 0,
   (error_band_amended.2.1 ⟨some "E", some 0⟩ 6 0 rfl (by decide)).1,
   (error_band_amended.2.1 ⟨some "E", some 0⟩ 6 0 rfl (by decide)).2,
   (error_band_amended.2.2.1 ErrBand.init "Recv messages finished").1,
   (error_band_amended.2.2.1 ErrBand.init "Recv messages finished").2,
   error_band_amended.2.2.2.1 ⟨some "E", some 0⟩ "E" rfl,
   error_band_amended.2.2.2.2.1 ⟨none, some 0⟩ rfl⟩

/-- C1: `set_topic_page` tests the page held *before* the transition, so
every transition that leaves `MessagesRecv` (here `k` to `Info`, `j` to
`Send`, and escape to `Normal`, each with live handle 7) keeps the handle and
aborts nothing — the claimed "post-state not `MessagesRecv` ⇒ no receive
handle, task aborted" fails; symmetrically, entering `MessagesRecv` from
`Messages` aborts the freshly spawned handle 3, and the stale handle is only
aborted one transition later. -/
theorem leaving_messages_recv_keeps_handle :
    select_previous_page ⟨.MessagesRecv, some 7⟩ = (⟨.Info, some 7⟩, []) ∧
    select_next_page ⟨.MessagesRecv, some 7⟩ = (⟨.Send, some 7⟩, []) ∧
    escape_page ⟨.MessagesRecv, some 7⟩ = (⟨.Normal, some 7⟩, []) ∧
    enter_on_messages ⟨.Messages, none⟩ 3 = (⟨.MessagesRecv, none⟩, [3]) ∧
    select_next_page ⟨.Info, some 7⟩ = (⟨.Messages, none⟩, [7]) := by
  refine ⟨rfl, rfl, rfl, rfl, rfl⟩

/-- C4: a stale selection is not treated as "none": with an empty topic list
and selection index 0 (or a one-topic list and index 1),
`render_selected_item` performs the out-of-range index access — a panic —
instead of returning, and `render_topic_send`'s topic lookup panics as well;
only a `None` selection returns without touching the list. -/
theorem stale_selection_render_panics :
    render_selected_item ([] : List KafkaTopic) (some 0) = .panicked ∧
    render_selected_item [⟨"t", []⟩] (some 1) = .panicked ∧
    render_topic_send_topic ([] : List KafkaTopic) (some 0) = none ∧
    render_selected_item ([] : List KafkaTopic) none = .noSelection ∧
    render_selected_item [⟨"t", []⟩] (some 0) = .rendered ⟨"t", []⟩ := by
  refine ⟨rfl, rfl, rfl, rfl, rfl⟩

theorem refreshTopics_cons_ok {wm : String → Int → Except String (Int × Int)}
    {t : MetadataTopic} {ts : List MetadataTopic} {kt : KafkaTopic}
    (h : fillTopic wm t = .ok kt) :
    refreshTopics wm (t :: ts) =
      (kt :: (refreshTopics wm ts).1, (refreshTopics wm ts).2) := by
  simp [refreshTopics, h]

theorem refreshTopics_cons_error {wm : String → Int → Except String (Int × Int)}
    {t : MetadataTopic} {ts : List MetadataTopic} {e : String}
    (h : fillTopic wm t = .error e) :
    refreshTopics wm (t :: ts) = ([], some e) := by
  simp [refreshTopics, h]

/-- C7: during a refresh whose metadata fetch succeeded, the first watermark
failure (in topic `t`, after the topics of `pre` were rebuilt) stops the
loop: the new list is exactly the rebuilt `pre` prefix — the topics of
`post` are never processed — and the error is raised; and when every
watermark fetch succeeds the refresh replaces the list completely,
independently of the old contents. -/
theorem refresh_watermark_failure_partial :
    (∀ (wm : String → Int → Except String (Int × Int))
        (old : List KafkaTopic) (pre post : List MetadataTopic)
        (t : MetadataTopic) (e : String),
      (∀ t' ∈ pre, ∃ kt, fillTopic wm t' = .ok kt) →
      fillTopic wm t = .error e →
      refresh_matadata (.ok (pre ++ t :: post)) wm old =
        (pre.filterMap fun x => (fillTopic wm x).toOption, some e)) ∧
    (∀ (wm : String → Int → Except String (Int × Int))
        (old : List KafkaTopic) (ts : List MetadataTopic),
      (∀ t' ∈ ts, ∃ kt, fillTopic wm t' = .ok kt) →
      refresh_matadata (.ok ts) wm old =
        (ts.filterMap fun x => (fillTopic wm x).toOption, none)) := by
  constructor
  · intro wm old pre post t e
    induction pre with
    | nil =>
      intro _ hfail
      simp only [refresh_matadata, List.nil_append, List.filterMap_nil]
      exact refreshTopics_cons_error hfail
    | cons p pre ih =>
      intro hpre hfail
      obtain ⟨kt, hkt⟩ := hpre p (by simp)
      have hrest := ih (fun t' ht' => hpre t' (by simp [ht'])) hfail
      simp only [refresh_matadata] at hrest ⊢
      rw [List.cons_append, refreshTopics_cons_ok hkt, hrest,
        List.filterMap_cons, hkt]
      rfl
  · intro wm old ts
    induction ts with
    | nil => intro _; rfl
    | cons p ts ih =>
      intro hts
      obtain ⟨kt, hkt⟩ := hts p (by simp)
      have hrest := ih fun t' ht' => hts t' (by simp [ht'])
      simp only [refresh_matadata] at hrest ⊢
      rw [refreshTopics_cons_ok hkt, hrest, List.filterMap_cons, hkt]
      rfl

theorem refresh_watermark_failure_partial_witness :
    fillTopic wmBoom ⟨"a", [⟨0, 1, [1], [1]⟩]⟩ =
      .ok ⟨"a", [⟨0, 1, [1], [1], 0, 10⟩]⟩ ∧
    fillTopic wmBoom ⟨"b", [⟨9, 1, [1], [1]⟩]⟩ = .error "boom" ∧
    refresh_matadata
      (.ok [⟨"a", [⟨0, 1, [1], [1]⟩]⟩, ⟨"b", [⟨9, 1, [1], [1]⟩]⟩, ⟨"c", []⟩])
      wmBoom [⟨"stale", []⟩] =
      ([⟨"a", [⟨0, 1, [1], [1], 0, 10⟩]⟩], some "boom") ∧
    refresh_matadata (.ok [⟨"c", []⟩]) wmBoom [⟨"stale", []⟩] =
      ([⟨"c", []⟩], none) := by
  refine ⟨rfl, rfl, ?_, ?_⟩
  · exact refresh_watermark_failure_partial.1 wmBoom [⟨"stale", []⟩]
      [⟨"a", [⟨0, 1, [1], [1]⟩]⟩] [⟨"c", []⟩] ⟨"b", [⟨9, 1, [1], [1]⟩]⟩ "boom"
      (fun t' ht' => by
        rw [List.mem_singleton] at ht'
        subst ht'
        exact ⟨⟨"a", [⟨0, 1, [1], [1], 0, 10⟩]⟩, rfl⟩)
      rfl
  · exact refresh_watermark_failure_partial.2 wmBoom [⟨"stale", []⟩] [⟨"c", []⟩]
      (fun t' ht' => by
        rw [List.mem_singleton] at ht'
        subst ht'
        exact ⟨⟨"c", []⟩, rfl⟩)


/-- C2 counterexample: with `message = "m"` and `key = ""` (a state reached
by typing `m` into a fresh form), submit does *not* fail with "Message or
key is empty": a record is produced — with no key attached — the
acknowledged form is cleared, and the page becomes `Messages`; and with
`message = ""` submit returns success without sending while the page still
becomes `Messages` instead of staying on `SendEdit` with an error. -/
theorem submit_accepts_empty_key :
    runKeys sendOk (TopicSendForm.new "t") [.ch 'm'] =
      some ⟨.Message, "t", [], ['m'], [], 1, none⟩ ∧
    submit ⟨.Message, "t", [], ['m'], [], 1, none⟩ sendOk =
      .ok ⟨.Message, "t", [], [], [], 0, none⟩ (some ⟨"t", ['m'], none, none⟩) ∧
    handle_key_press ⟨.Message, "t", [], ['m'], [], 1, none⟩ .enter sendOk =
      .ok ⟨.Message, "t", [], [], [], 0, none⟩ .Messages
        (some ⟨"t", ['m'], none, none⟩) ∧
    handle_key_press (TopicSendForm.new "t") .enter sendOk =
      .ok (TopicSendForm.new "t") .Messages none :=
  ⟨rfl, rfl, rfl, rfl⟩

theorem submit_eq_submitSend (s : TopicSendForm) (send : BaseRecord → Option String)
    (hm : s.message ≠ []) (hp : s.partition = []) :
    submit s send = submitSend s send (builtRecord s) := by
  by_cases hk : s.key = [] <;> simp [submit, submitSend, builtRecord, hm, hp, hk]

/-- C2 amended: submit performs no emptiness validation and the error
"Message or key is empty" does not exist.  An empty message returns success
at once, sending nothing, and `Enter` moves the page to `Messages` with the
fields unchanged.  A non-empty message (empty partition case) always builds
a record whose key is attached only when non-empty; on acknowledgement all
three fields are cleared, the cursor is 0 and the page becomes `Messages`;
on a send failure the error is stored and the page stays `SendEdit` with the
fields preserved. -/
theorem submit_amended (s : TopicSendForm) (send : BaseRecord → Option String) :
    (s.message = [] → submit s send = .ok s none ∧
      (s.field = .Message →
        handle_key_press s .enter send = .ok s .Messages none)) ∧
    (s.message ≠ [] → s.partition = [] →
      (send (builtRecord s) = none →
        submit s send = .ok s.emptyForm (some (builtRecord s)) ∧
        s.emptyForm.message = [] ∧ s.emptyForm.key = [] ∧
        s.emptyForm.partition = [] ∧ s.emptyForm.cursor_index = 0 ∧
        (s.field = .Message →
          handle_key_press s .enter send =
            .ok s.emptyForm .Messages (some (builtRecord s)))) ∧
      (∀ e, send (builtRecord s) = some e →
        submit s send = .failed { s with err := some e } e (builtRecord s) ∧
        (s.field = .Message →
          handle_key_press s .enter send =
            .ok { s with err := some e } .SendEdit none))) := by
  constructor
  · intro hm
    have hsub : submit s send = .ok s none := by simp [submit, hm]
    exact ⟨hsub, fun hf => by simp [handle_key_press, hf, hsub]⟩
  · intro hm hp
    constructor
    · intro hsend
      have hsub : submit s send = .ok s.emptyForm (some (builtRecord s)) := by
        rw [submit_eq_submitSend s send hm hp]
        simp [submitSend, hsend]
      refine ⟨hsub, rfl, rfl, rfl, rfl, fun hf => ?_⟩
      simp [handle_key_press, hf, hsub]
    · intro e hsend
      have hsub : submit s send =
          .failed { s with err := some e } e (builtRecord s) := by
        rw [submit_eq_submitSend s send hm hp]
        simp [submitSend, hsend]
      exact ⟨hsub, fun hf => by simp [handle_key_press, hf, hsub]⟩

theorem submit_amended_witness :
    submit ⟨.Message, "t", [], ['m'], ['k'], 1, none⟩ sendOk =
      .ok (TopicSendForm.emptyForm ⟨.Message, "t", [], ['m'], ['k'], 1, none⟩)
        (some (builtRecord ⟨.Message, "t", [], ['m'], ['k'], 1, none⟩)) ∧
    TopicSendForm.emptyForm ⟨.Message, "t", [], ['m'], ['k'], 1, none⟩ =
      ⟨.Message, "t", [], [], [], 0, none⟩ ∧
    builtRecord ⟨.Message, "t", [], ['m'], ['k'], 1, none⟩ =
      ⟨"t", ['m'], some ['k'], none⟩ :=
  ⟨(((submit_amended ⟨.Message, "t", [], ['m'], ['k'], 1, none⟩ sendOk).2
      (by decide) rfl).1 rfl).1, rfl, by decide⟩

/-- C5: while the Partition field is active (cursor within the digit-only
field), an input character ends up in the field exactly when it is a decimal
digit, a non-digit leaves the whole form — contents and cursor — unchanged,
and a digit is inserted at the cursor, advancing it; the Message and Key
fields accept any character. -/
theorem partition_digit_filter (s : TopicSendForm) (c : Char)
    (hcur : s.cursor_index ≤ s.partition.length)
    (hdig : ∀ d ∈ s.partition, d.isDigit = true) :
    (s.field = .Partition →
      ∃ s', enter_char s c = some s' ∧
        ((c ∈ s'.partition) ↔ c.isDigit = true) ∧
        (c.isDigit = false → s' = s) ∧
        (c.isDigit = true →
          s'.partition = s.partition.insertIdx s.cursor_index c ∧
          s'.cursor_index = s.cursor_index + 1)) ∧
    (s.field = .Message → s.cursor_index ≤ s.message.length →
      ∃ s', enter_char s c = some s' ∧
        s'.message = s.message.insertIdx s.cursor_index c ∧
        s'.cursor_index = s.cursor_index + 1) ∧
    (s.field = .Key → s.cursor_index ≤ s.key.length →
      ∃ s', enter_char s c = some s' ∧
        s'.key = s.key.insertIdx s.cursor_index c ∧
        s'.cursor_index = s.cursor_index + 1) := by
  refine ⟨?_, ?_, ?_⟩
  · intro hf
    by_cases hd : c.isDigit
    · refine ⟨move_cursor_right
        { s with partition := s.partition.insertIdx s.cursor_index c },
        ?_, ?_, ?_, fun _ => ⟨rfl, rfl⟩⟩
      · simp [enter_char, hf, hd, insertCharAt, hcur]
      · simpa [move_cursor_right] using
          (iff_of_true ((List.mem_insertIdx hcur).mpr (Or.inl rfl)) hd)
      · intro hfalse
        rw [hd] at hfalse
        exact absurd hfalse (by simp)
    · refine ⟨s, by simp [enter_char, hf, hd], ?_, fun _ => rfl, ?_⟩
      · constructor
        · intro hc
          exact hdig c hc
        · intro hc
          exact absurd hc (by simpa using hd)
      · intro hc
        exact absurd hc (by simpa using hd)
  · intro hf hcm
    exact ⟨move_cursor_right
      { s with message := s.message.insertIdx s.cursor_index c },
      by simp [enter_char, hf, insertCharAt, hcm], rfl, rfl⟩
  · intro hf hck
    exact ⟨move_cursor_right { s with key := s.key.insertIdx s.cursor_index c },
      by simp [enter_char, hf, insertCharAt, hck], rfl, rfl⟩

theorem partition_digit_filter_witness :
    (∃ s', enter_char ⟨.Partition, "t", ['1'], [], [], 1, none⟩ '2' = some s' ∧
      (('2' ∈ s'.partition) ↔ '2'.isDigit = true) ∧
      ('2'.isDigit = false → s' = ⟨.Partition, "t", ['1'], [], [], 1, none⟩) ∧
      ('2'.isDigit = true →
        s'.partition = (['1'] : List Char).insertIdx 1 '2' ∧
        s'.cursor_index = 1 + 1)) ∧
    (∃ s', enter_char ⟨.Partition, "t", ['1'], [], [], 1, none⟩ 'x' = some s' ∧
      (('x' ∈ s'.partition) ↔ 'x'.isDigit = true) ∧
      ('x'.isDigit = false → s' = ⟨.Partition, "t", ['1'], [], [], 1, none⟩) ∧
      ('x'.isDigit = true →
        s'.partition = (['1'] : List Char).insertIdx 1 'x' ∧
        s'.cursor_index = 1 + 1)) :=
  ⟨(partition_digit_filter ⟨.Partition, "t", ['1'], [], [], 1, none⟩ '2'
      (by decide) (by decide)).1 rfl,
   (partition_digit_filter ⟨.Partition, "t", ['1'], [], [], 1, none⟩ 'x'
      (by decide) (by decide)).1 rfl⟩

/-- C6: `move_cursor_right` does not saturate at the field's end: on a fresh
form (empty Message field, cursor 0 = end of field) pressing Right moves the
cursor to 1, past the end, so the claimed reachable-state invariant
`cursor ≤ active field length` fails, and the following character insertion
is out of bounds — a panic — rather than always in bounds. -/
theorem cursor_right_unclamped_panics :
    runKeys sendOk (TopicSendForm.new "t") [.right] =
      some ⟨.Message, "t", [], [], [], 1, none⟩ ∧
    (TopicSendForm.new "t").message.length = 0 ∧
    move_cursor_right (TopicSendForm.new "t") ≠ TopicSendForm.new "t" ∧
    enter_char ⟨.Message, "t", [], [], [], 1, none⟩ 'a' = none ∧
    runKeys sendOk (TopicSendForm.new "t") [.right, .ch 'a'] = none := by
  refine ⟨rfl, rfl, by decide, rfl, rfl⟩

/-- C10: a reachable send-form state whose partition field is the non-empty
digit string "9999999999" (value 9999999999 > 2^31 − 1) makes submit panic
at the unchecked `parse::<i32>().unwrap()`: the digit-only filter does not
make the parse total. -/
theorem partition_parse_overflow_panics :
    (∃ s, runKeys sendOk (TopicSendForm.new "t")
        [.ch 'm', .tabKey, .tabKey, .ch '9', .ch '9', .ch '9', .ch '9', .ch '9',
         .ch '9', .ch '9', .ch '9', .ch '9', .ch '9', .enter] = some s ∧
      s.partition ≠ [] ∧ s.partition.all (fun c => c.isDigit) = true ∧
      parse_i32 s.partition = none ∧
      submit s sendOk = .panicked) ∧
    runKeys sendOk (TopicSendForm.new "t")
        [.ch 'm', .tabKey, .tabKey, .ch '9', .ch '9', .ch '9', .ch '9', .ch '9',
         .ch '9', .ch '9', .ch '9', .ch '9', .ch '9', .enter, .enter] = none := by
  refine ⟨⟨⟨.Message, "t", ['9', '9', '9', '9', '9', '9', '9', '9', '9', '9'],
      ['m'], [], 1, none⟩, ?_, ?_, ?_, ?_, ?_⟩, ?_⟩ <;> decide

end Kata
